import Mathlib

/-!
Verification development for the fingerprint-converter media-conversion
service.  The Go sources are shallowly embedded: pure computations become
Lean functions, the stateful components (buffer pool, device cache) become
explicit state-passing functions, machine integers become `Int`/`Nat`
(the counters involved stay far from any 32/64-bit boundary on the traces
considered), and fallible code returns `Except`.  External effects (the
ffmpeg child process, the filesystem, HTTP) are abstracted as explicit
parameters: ffmpeg's stdout bytes, a `String → Option Nat` file-system
view mapping a path to the size of the file stored there, and the response
metadata (status, Content-Length, body length) of a download.
-/

namespace FPConv

/-!
## Buffer pool — src/internal/pool/buffer_pool.go

`sync.Pool` is modeled by a count `reserve` of buffers currently available
for reuse; the factory closure registered in `NewBufferPool` fires exactly
when a `Get` finds the reserve empty.  (A real `sync.Pool` may additionally
drop idle buffers under GC pressure; dropping only shrinks `reserve`, and
none of the statements below depend on buffers being retained.)
-/

structure BufferPool where
  size : Nat
  reserve : Nat
  allocated : Nat
  inUse : Int
  hits : Nat
  misses : Nat
deriving DecidableEq, Repr

/-- Go `NewBufferPool(count, size)`: pre-allocates `count` buffers of `size`
bytes each and puts them into the pool (lines 20-47). -/
def NewBufferPool (count size : Nat) : BufferPool :=
  { size := size, reserve := count, allocated := count,
    inUse := 0, hits := 0, misses := 0 }

/-- Go `BufferPool.Get` (lines 50-54): increments `inUse` and `hits`
unconditionally, then draws from the `sync.Pool`; when the reserve is
empty the factory (lines 27-31) allocates, incrementing `allocated`
and `misses`. -/
def BufferPool.get (bp : BufferPool) : BufferPool :=
  if bp.reserve = 0 then
    { bp with inUse := bp.inUse + 1, hits := bp.hits + 1,
              allocated := bp.allocated + 1, misses := bp.misses + 1 }
  else
    { bp with inUse := bp.inUse + 1, hits := bp.hits + 1,
              reserve := bp.reserve - 1 }

/-- Go `BufferPool.Put` (lines 57-67): a nil buffer or one whose capacity is
below the pool size is dropped without touching any counter; otherwise
`inUse` decrements and the buffer rejoins the reserve. -/
def BufferPool.put (bp : BufferPool) (bufCap : Nat) : BufferPool :=
  if bufCap < bp.size then bp
  else { bp with inUse := bp.inUse - 1, reserve := bp.reserve + 1 }

/-- Go `BufferPool.GetSized` (lines 71-79): requests of at most the pool
buffer size go through `Get`; larger requests allocate fresh outside the
pool, incrementing only `inUse`. -/
def BufferPool.getSized (bp : BufferPool) (sz : Nat) : BufferPool :=
  if sz ≤ bp.size then bp.get
  else { bp with inUse := bp.inUse + 1 }

/-- Go `BufferPool.PutSized` (lines 82-90). -/
def BufferPool.putSized (bp : BufferPool) (bufCap : Nat) : BufferPool :=
  if bp.size ≤ bufCap then bp.put bufCap
  else { bp with inUse := bp.inUse - 1 }

/-- One client interaction with the pool. -/
inductive PoolOp where
  | get : PoolOp
  | getSized (sz : Nat) : PoolOp
  | put (bufCap : Nat) : PoolOp
  | putSized (bufCap : Nat) : PoolOp
deriving DecidableEq, Repr

def poolStep (bp : BufferPool) : PoolOp → BufferPool
  | .get => bp.get
  | .getSized sz => bp.getSized sz
  | .put c => bp.put c
  | .putSized c => bp.putSized c

def poolRun (bp : BufferPool) : List PoolOp → BufferPool
  | [] => bp
  | op :: ops => poolRun (poolStep bp op) ops

/-- Number of acquisitions (`Get` or `GetSized`) in an operation
sequence. -/
def acquisitionCount : List PoolOp → Nat
  | [] => 0
  | .get :: ops => acquisitionCount ops + 1
  | .getSized _ :: ops => acquisitionCount ops + 1
  | _ :: ops => acquisitionCount ops

/-- Number of acquisitions that reach the internal `sync.Pool` draw
(`Get` calls, and `GetSized` calls with size at most the pool buffer
size); the oversized `GetSized` path touches neither counter. -/
def poolPathAcqCount (size : Nat) : List PoolOp → Nat
  | [] => 0
  | .get :: ops => poolPathAcqCount size ops + 1
  | .getSized sz :: ops =>
      (if sz ≤ size then 1 else 0) + poolPathAcqCount size ops
  | _ :: ops => poolPathAcqCount size ops

/-- Number of acquisitions actually served from the reserve along a run. -/
def reserveServedCount (bp : BufferPool) : List PoolOp → Nat
  | [] => 0
  | op :: ops =>
      (match op with
       | .get => if bp.reserve = 0 then 0 else 1
       | .getSized sz =>
           if sz ≤ bp.size then (if bp.reserve = 0 then 0 else 1) else 0
       | _ => 0) + reserveServedCount (poolStep bp op) ops

/-- Number of acquisitions served by the factory closure along a run. -/
def factoryServedCount (bp : BufferPool) : List PoolOp → Nat
  | [] => 0
  | op :: ops =>
      (match op with
       | .get => if bp.reserve = 0 then 1 else 0
       | .getSized sz =>
           if sz ≤ bp.size then (if bp.reserve = 0 then 1 else 0) else 0
       | _ => 0) + factoryServedCount (poolStep bp op) ops

/-!
## Downloader — src/internal/services/downloader.go

`Download` is embedded as a function of the response metadata.  The body is
abstracted to its length `bodyLen`; `io.ReadFull` into a buffer of `n`
bytes reads `min n bodyLen` bytes (`io.ErrUnexpectedEOF`, tolerated by the
source, when the body is shorter but nonempty; untolerated `io.EOF` when
the body is empty), and `io.ReadAll(io.LimitReader(body, maxSize))` reads
`min bodyLen maxSize` bytes.  The returned value is the length of the
returned byte slice.
-/

/-- The branch structure of `Download` (lines 79-111) deciding how the body
is read, given the advertised Content-Length: `true` means the
pooled-buffer `GetSized`/`ReadFull` path, `false` the
`LimitReader`/`ReadAll` path.  Note the source compares the Content-Length
against `bufferPool.GetStats().Allocated` — the count of buffers ever
allocated — on line 88. -/
def downloadReadPath (maxSize allocated contentLength : Int) : Bool :=
  if contentLength > maxSize then false
  else if contentLength > 0 then decide (contentLength ≤ allocated)
  else false

/-- Go `strings.HasPrefix`, over character lists. -/
def startsWithS (s pre : String) : Bool := List.isPrefixOf pre.toList s.toList

/-- Body-reading phase of `Download` (lines 79-117): the length check
against the advertised Content-Length, the branch between the pooled
`ReadFull` and the `LimitReader` reads, and the final empty-result
check. -/
def downloadData (maxSize allocated contentLength : Int) (bodyLen : Nat) :
    Except String Nat :=
  if contentLength > maxSize then .error "file too large"
  else
    let data : Except String Nat :=
      if contentLength > 0 then
        if contentLength ≤ allocated then
          if bodyLen = 0 then .error "read failed"
          else .ok (min contentLength.toNat bodyLen)
        else .ok (min bodyLen maxSize.toNat)
      else .ok (min bodyLen maxSize.toNat)
    match data with
    | .error e => .error e
    | .ok n => if n = 0 then .error "downloaded file is empty" else .ok n

/-- Go `Downloader.Download` (lines 51-118), given the advertised
Content-Length (negative when unknown, as in `net/http`) and the actual
body length. -/
def Download (maxSize allocated : Int) (url : String) (status : Int)
    (contentLength : Int) (bodyLen : Nat) : Except String Nat :=
  if url = "" then .error "empty URL"
  else if !(startsWithS url "http://" || startsWithS url "https://") then
    .error "invalid URL scheme: must be http:// or https://"
  else if status ≠ 200 then .error "download failed: HTTP status"
  else downloadData maxSize allocated contentLength bodyLen

/-!
## Device cache — internal/cache/device_cache.go (src/unnamed/part_001)

Go maps are modeled as association lists with lookup by key; an insertion
replaces any previous binding.  `time.Time`/`time.Duration` are modeled as
`Int` nanoseconds.  `hashURL` (md5 hex digest, part_001 lines 300-303) is
kept abstract: every operation takes the digest function as a parameter
`h`; nothing below depends on any property of the digest.  Physical file
removal (and the `evictions` counter it conditions) is I/O outside the
scope of the claims and is omitted from the state.
-/

def lookupA {α : Type} (l : List (String × α)) (k : String) : Option α :=
  (l.find? (fun p => p.1 == k)).map (fun p => p.2)

def insertA {α : Type} (l : List (String × α)) (k : String) (v : α) :
    List (String × α) :=
  (k, v) :: l.filter (fun p => p.1 != k)

def eraseA {α : Type} (l : List (String × α)) (k : String) :
    List (String × α) :=
  l.filter (fun p => p.1 != k)

/-- Go `CacheEntry` (part_001 lines 15-24). -/
structure CacheEntry where
  processedPath : String
  cacheExpires : Int
  fileExpires : Int
  created : Int
  uses : Int
  size : Int
  mediaType : String
  url : String
deriving DecidableEq, Repr

/-- Go `CacheStats` (part_001 lines 39-49); only the fields the source ever
writes. -/
structure CacheStats where
  hits : Int
  misses : Int
  evictions : Int
deriving DecidableEq, Repr

/-- Go `DeviceCache` (part_001 lines 27-36): deviceID → urlHash → entry. -/
structure DeviceCache where
  cache : List (String × List (String × CacheEntry))
  cacheTTL : Int
  fileTTL : Int
  stats : CacheStats
deriving DecidableEq, Repr

def minuteNS : Int := 60 * 1000000000

/-- Go `NewDeviceCache` (part_001 lines 52-80): nonpositive TTL arguments are
replaced by the defaults of 28 and 30 minutes. -/
def NewDeviceCache (cacheTTL fileTTL : Int) : DeviceCache :=
  { cache := [],
    cacheTTL := if cacheTTL ≤ 0 then 28 * minuteNS else cacheTTL,
    fileTTL := if fileTTL ≤ 0 then 30 * minuteNS else fileTTL,
    stats := ⟨0, 0, 0⟩ }

def DeviceCache.recordHit (dc : DeviceCache) : DeviceCache :=
  { dc with stats := { dc.stats with hits := dc.stats.hits + 1 } }

def DeviceCache.recordMiss (dc : DeviceCache) : DeviceCache :=
  { dc with stats := { dc.stats with misses := dc.stats.misses + 1 } }

/-- Go `DeviceCache.Get` (part_001 lines 84-112): miss when there is no
device submap, no entry, or `time.Now().After(entry.CacheExpires)` — a
strict comparison, so a lookup at exactly `CacheExpires` is still a hit;
on a hit `entry.Uses++` (mutation of the shared entry, modeled by
reinserting the bumped entry) and the global hit counter increments. -/
def DeviceCache.get (h : String → String) (dc : DeviceCache) (now : Int)
    (deviceID url : String) : Option CacheEntry × DeviceCache :=
  let urlHash := h url
  match lookupA dc.cache deviceID with
  | none => (none, dc.recordMiss)
  | some deviceCache =>
    match lookupA deviceCache urlHash with
    | none => (none, dc.recordMiss)
    | some entry =>
      if now > entry.cacheExpires then (none, dc.recordMiss)
      else
        let entry2 := { entry with uses := entry.uses + 1 }
        (some entry2,
         { dc.recordHit with
             cache :=
               insertA dc.cache deviceID (insertA deviceCache urlHash entry2) })

/-- Go `DeviceCache.Set` (part_001 lines 115-147): unconditionally replaces
any entry for the pair and stamps both expirations from `now`.  The
`go dc.scheduleFileDeletion(...)` it spawns is modeled as the separate
`fireDeletion` transition below, which the scheduler applies at
`now + fileTTL`. -/
def DeviceCache.set (h : String → String) (dc : DeviceCache) (now : Int)
    (deviceID url processedPath mediaType : String) (fileSize : Int) :
    DeviceCache :=
  let urlHash := h url
  let deviceCache := (lookupA dc.cache deviceID).getD []
  let entry : CacheEntry :=
    { processedPath := processedPath,
      cacheExpires := now + dc.cacheTTL,
      fileExpires := now + dc.fileTTL,
      created := now,
      uses := 0,
      size := fileSize,
      mediaType := mediaType,
      url := url }
  { dc with
    cache := insertA dc.cache deviceID (insertA deviceCache urlHash entry) }

/-- Map effect of `scheduleFileDeletion` firing (part_001 lines 150-174):
after sleeping `fileTTL` it removes whatever entry currently occupies
`(deviceID, urlHash)` — keyed deletion, with no check that the entry it
removes is the one whose insertion armed it — and drops the device submap
when it became empty. -/
def DeviceCache.fireDeletion (dc : DeviceCache) (deviceID urlHash : String) :
    DeviceCache :=
  match lookupA dc.cache deviceID with
  | none => dc
  | some deviceCache =>
    let remaining := eraseA deviceCache urlHash
    if remaining.isEmpty then { dc with cache := eraseA dc.cache deviceID }
    else { dc with cache := insertA dc.cache deviceID remaining }

/-- Go `DeviceCache.cleanup` (part_001 lines 190-225): the sweeper removes
exactly the entries with `now.After(entry.FileExpires)` and drops emptied
device submaps. -/
def DeviceCache.cleanup (dc : DeviceCache) (now : Int) : DeviceCache :=
  let swept :=
    (dc.cache.map (fun p =>
      (p.1, p.2.filter (fun q => !decide (now > q.2.fileExpires))))).filter
      (fun p => !p.2.isEmpty)
  { dc with cache := swept }

/-- Entry stored for `(deviceID, urlHash)`, as the handler and the timers
see it. -/
def DeviceCache.lookupEntry (dc : DeviceCache) (deviceID urlHash : String) :
    Option CacheEntry :=
  match lookupA dc.cache deviceID with
  | none => none
  | some deviceCache => lookupA deviceCache urlHash

/-!
## Image converter — src/internal/services/downloader.go (second file,
`ImageConverter`, lines 144-412 of the concatenation)

Bytes are modeled as `List Nat`.  The ffmpeg child process is external: its
stdout is a parameter `ffmpegOut`.  The filesystem is a map
`String → Option Nat` from a path to the size of the file stored there;
`os.WriteFile` updates it, `os.Stat` reads it.
-/

def pngSignature : List Nat := [0x89, 0x50, 0x4E, 0x47, 0x0D, 0x0A, 0x1A, 0x0A]

/-- Go `ImageConverter.detectFormat` (lines 345-366). -/
def detectFormat (data : List Nat) : String :=
  if data.length < 12 then "unknown"
  else if data.take 8 = pngSignature then "png"
  else if data.take 2 = [0xFF, 0xD8] then "jpeg"
  else if data.take 4 = [0x52, 0x49, 0x46, 0x46] ∧
          (data.drop 8).take 4 = [0x57, 0x45, 0x42, 0x50] then "webp"
  else "unknown"

/-- Go `filepath.Ext`: the suffix of the final slash-separated element
starting at its final dot, empty when there is none.  Implemented by
walking the reversed character list. -/
def filepathExtAux : List Char → List Char → List Char
  | [], _ => []
  | c :: rest, acc =>
    if c = '/' then []
    else if c = '.' then '.' :: acc
    else filepathExtAux rest (c :: acc)

def filepathExt (p : String) : String :=
  String.mk (filepathExtAux p.toList.reverse [])

/-- Go `strings.TrimSuffix`. -/
def trimSuffixS (s suf : String) : String :=
  if List.isSuffixOf suf.toList s.toList then
    String.mk (s.toList.take (s.toList.length - suf.toList.length))
  else s

/-- Go `ImageConverter.adjustOutputPath` (lines 368-380): strips the
extension of `path` and replaces it by one determined by the detected
format — `.jpg` for anything that is not png or webp. -/
def adjustOutputPath (path format : String) : String :=
  let ext := filepathExt path
  let base := trimSuffixS path ext
  if format = "png" then base ++ ".png"
  else if format = "webp" then base ++ ".webp"
  else base ++ ".jpg"

/-- Output format choice inside `ImageConverter.Convert` (lines 212-216):
the detected input format if it is png/jpeg/jpg/webp, else jpeg. -/
def imageOutputFormat (inputFormat : String) : String :=
  if inputFormat ≠ "png" ∧ inputFormat ≠ "jpeg" ∧ inputFormat ≠ "jpg" ∧
      inputFormat ≠ "webp" then "jpeg"
  else inputFormat

/-- Go `filepath.Join` for a directory and a file name. -/
def filepathJoin (dir name : String) : String := dir ++ "/" ++ name

/-- Go `ImageConverter.GenerateOutputPath` (lines 408-412, extension `.jpg`
from `GetOutputExtension`, line 404):
`{deviceID}_{urlHash[:8]}_{unixSeconds}.jpg` inside `cacheDir`. -/
def GenerateImageOutputPath (cacheDir deviceID urlHash : String)
    (timestamp : Int) : String :=
  filepathJoin cacheDir
    (deviceID ++ "_" ++ String.mk (urlHash.toList.take 8) ++ "_" ++
      toString timestamp ++ ".jpg")

/-- Go `ImageConverter.Convert` (lines 168-272), abstracting the ffmpeg run:
validates the input, detects its format, runs ffmpeg (an error or an empty
stdout fails the conversion), and persists the stdout bytes at
`adjustOutputPath outputPath outputFormat` — which need not equal the
`outputPath` the caller supplied.  Returns the updated filesystem and the
path actually written. -/
def imageConvert (fs : String → Option Nat) (inputData : List Nat)
    (level : String) (outputPath : String) (ffmpegOut : List Nat) :
    Except String ((String → Option Nat) × String) :=
  if inputData.length = 0 then .error "empty input data"
  else
    let outputFormat := imageOutputFormat (detectFormat inputData)
    if ffmpegOut.length = 0 then .error "ffmpeg produced no output"
    else
      let finalPath := adjustOutputPath outputPath outputFormat
      .ok (fun p => if p = finalPath then some ffmpegOut.length else fs p,
           finalPath)

/-!
## Request handler — src/internal/handlers/converter_handler.go
(second version, lines 403-615)
-/

/-- Go `getMediaSubdir` (lines 742-753). -/
def getMediaSubdir (mediaType : String) : String :=
  if mediaType = "audio" then "audios"
  else if mediaType = "image" then "imagens"
  else if mediaType = "video" then "videos"
  else "outros"

/-- The miss branch of `ConverterHandler.Convert` for an inline-base64
image request (lines 493-614), from the already-decoded payload onward:
compute `originalSize`, build the media subdirectory and the output path,
run the image converter, `os.Stat(outputPath)` for the processed size, and
on success report `(processedPath, originalSize, processedSize)` with
`cache_hit: false`.  Directory creation is elided (it does not touch the
path map); the cache insertion and second lookup are modeled separately by
`handlerMissTail`. -/
def handlerImageBase64Miss (fs : String → Option Nat) (decoded : List Nat)
    (level cacheDir deviceID urlHash : String) (timestamp : Int)
    (ffmpegOut : List Nat) : Except String (String × Nat × Nat) :=
  let originalSize := decoded.length
  let mediaCacheDir := filepathJoin cacheDir (getMediaSubdir "image")
  let outputPath := GenerateImageOutputPath mediaCacheDir deviceID urlHash timestamp
  match imageConvert fs decoded level outputPath ffmpegOut with
  | .error e => .error ("Conversion failed: image: " ++ e)
  | .ok fs2 =>
    match fs2.1 outputPath with
    | none => .error "Failed to stat output file"
    | some processedSize => .ok (outputPath, originalSize, processedSize)

/-- The fields of the miss-branch JSON response relevant to the cache
claims (lines 579-614): expiration strings are read from a second
`cache.Get` performed right after `cache.Set`, and `CacheHit` is the
literal `false`. -/
structure MissResponse where
  success : Bool
  cacheHit : Bool
  cacheExpires : Option Int
  fileExpires : Option Int
deriving DecidableEq, Repr

/-- Lines 579-614 of the handler: `cache.Set`, then a second `cache.Get`
for the expiration timestamps, then the JSON response with
`CacheHit: false`.  Both happen back-to-back inside one request; `setTime`
and `getTime` are the clock readings of the two calls. -/
def handlerMissTail (h : String → String) (dc : DeviceCache)
    (setTime getTime : Int) (deviceID url outputPath mediaType : String)
    (processedSize : Int) : MissResponse × DeviceCache :=
  let dc1 := DeviceCache.set h dc setTime deviceID url outputPath mediaType
    processedSize
  let r := DeviceCache.get h dc1 getTime deviceID url
  ({ success := true,
     cacheHit := false,
     cacheExpires := r.1.map CacheEntry.cacheExpires,
     fileExpires := r.1.map CacheEntry.fileExpires },
   r.2)

/-!
## Video converter parameter sampling — src/internal/config/config.go
(VideoConverter, lines 556-607)

The source computes, e.g. for level basic,
`bitrateVariation := int(float64(originalBitrate) * (0.05 + float64(rand.Intn(6))/100.0))`
and then draws `rand.Intn(bitrateVariation * 2)`.  The float computation
is modeled over the integers as truncated division by 100; for the
bitrates involved in the statements below (single-digit kbps) the float
product lies strictly between consecutive integers, so the truncations
agree exactly.  `math/rand.Intn(n)` panics when `n ≤ 0`.
-/

/-- Percentage factor of the bitrate variation per level: basic draws
5-10% (`0.05 + Intn(6)/100`), moderate 8-12% (`0.08 + Intn(5)/100`),
paranoid 10-15% (`0.10 + Intn(6)/100`); `none` draws nothing. -/
def bitrateVariationPct (level : String) (k : Int) : Option Int :=
  if level = "basic" then some (5 + k)
  else if level = "moderate" then some (8 + k)
  else if level = "paranoid" then some (10 + k)
  else none

/-- Go `bitrateVariation` for a drawn percentage `pct`:
`int(float64(originalBitrate) * (pct/100))`, modeled as truncated integer
division. -/
def bitrateVariation (originalBitrate pct : Int) : Int :=
  originalBitrate * pct / 100

/-- The argument the source passes to `rand.Intn` when sampling the
bitrate offset (lines 568, 575, 588): `bitrateVariation * 2`. -/
def bitrateIntnArg (variation : Int) : Int := variation * 2

/-- Go `math/rand.Intn(n)` panics exactly when `n ≤ 0`. -/
def intnPanics (n : Int) : Prop := n ≤ 0

/-!
## Concrete instances used by the boundary statements
-/

/-- Concrete instantiation of the abstract URL-digest parameter, used only
to evaluate the cache model on concrete states; no statement relies on any
property of the digest function. -/
def hashId : String → String := fun s => s

/-- Projection of a `CacheEntry` onto every field except `uses`. -/
def frameOf (e : CacheEntry) :
    String × Int × Int × Int × Int × String × String :=
  (e.processedPath, e.cacheExpires, e.fileExpires, e.created, e.size,
   e.mediaType, e.url)

/-- Iterated `DeviceCache.Get` calls for one `(deviceID, url)` pair at the
given sequence of clock readings. -/
def applyGets (h : String → String) (deviceID url : String) :
    DeviceCache → List Int → DeviceCache
  | dc, [] => dc
  | dc, now :: rest =>
      applyGets h deviceID url ((DeviceCache.get h dc now deviceID url).2) rest

/-- A well-formed 67-byte 1×1 RGBA PNG (signature, IHDR, IDAT, IEND). -/
def png1x1 : List Nat :=
  [0x89, 0x50, 0x4E, 0x47, 0x0D, 0x0A, 0x1A, 0x0A,
   0x00, 0x00, 0x00, 0x0D, 0x49, 0x48, 0x44, 0x52,
   0x00, 0x00, 0x00, 0x01, 0x00, 0x00, 0x00, 0x01,
   0x08, 0x06, 0x00, 0x00, 0x00, 0x1F, 0x15, 0xC4,
   0x89, 0x00, 0x00, 0x00, 0x0D, 0x49, 0x44, 0x41,
   0x54, 0x78, 0x9C, 0x62, 0x00, 0x01, 0x00, 0x00,
   0x05, 0x00, 0x01, 0x0D, 0x0A, 0x2D, 0xB4, 0x00,
   0x00, 0x00, 0x00, 0x49, 0x45, 0x4E, 0x44, 0xAE,
   0x42, 0x60, 0x82]

/-- Cache whose single entry expires (logically) at time 10: constructed
with `cacheTTL = 10`, `fileTTL = 20` and one `Set` at time 0. -/
def dcBoundary : DeviceCache :=
  DeviceCache.set hashId (NewDeviceCache 10 20) 0 "d" "u" "p" "image" 1

/-- The entry `dcBoundary` returns on a hit (one use recorded). -/
def entryBoundary : CacheEntry :=
  { processedPath := "p", cacheExpires := 10, fileExpires := 20,
    created := 0, uses := 1, size := 1, mediaType := "image", url := "u" }

/-- Cache constructed with `fileTTL < cacheTTL` (both positive, so neither
default applies). -/
def dcSwap : DeviceCache := NewDeviceCache 2 1

/-!
## Theorems
-/

instance exceptDecEq {ε α : Type} [DecidableEq ε] [DecidableEq α] :
    DecidableEq (Except ε α)
  | .error e, .error f =>
      if h : e = f then .isTrue (by rw [h])
      else .isFalse (fun c => by cases c; exact h rfl)
  | .error _, .ok _ => .isFalse (fun c => by cases c)
  | .ok _, .error _ => .isFalse (fun c => by cases c)
  | .ok a, .ok b =>
      if h : a = b then .isTrue (by rw [h])
      else .isFalse (fun c => by cases c; exact h rfl)

instance intnPanicsDec (n : Int) : Decidable (intnPanics n) :=
  inferInstanceAs (Decidable (n ≤ 0))

theorem poolRun_hits (bp : BufferPool) (ops : List PoolOp) :
    (poolRun bp ops).hits = bp.hits + poolPathAcqCount bp.size ops := by
  induction ops generalizing bp with
  | nil => rfl
  | cons op ops ih =>
    cases op with
    | get =>
      by_cases hr : bp.reserve = 0 <;>
        simp [poolRun, poolStep, BufferPool.get, hr, poolPathAcqCount, ih] <;>
        omega
    | getSized sz =>
      by_cases hs : sz ≤ bp.size
      · by_cases hr : bp.reserve = 0 <;>
          simp [poolRun, poolStep, BufferPool.getSized, BufferPool.get, hs, hr,
            poolPathAcqCount, ih] <;>
          omega
      · simp [poolRun, poolStep, BufferPool.getSized, hs, poolPathAcqCount, ih]
    | put c =>
      by_cases hc : c < bp.size <;>
        simp [poolRun, poolStep, BufferPool.put, hc, poolPathAcqCount, ih]
    | putSized c =>
      by_cases hc : bp.size ≤ c
      · have hc2 : ¬c < bp.size := by omega
        simp [poolRun, poolStep, BufferPool.putSized, BufferPool.put, hc, hc2,
          poolPathAcqCount, ih]
      · simp [poolRun, poolStep, BufferPool.putSized, hc, poolPathAcqCount, ih]

theorem poolRun_misses (bp : BufferPool) (ops : List PoolOp) :
    (poolRun bp ops).misses = bp.misses + factoryServedCount bp ops := by
  induction ops generalizing bp with
  | nil => rfl
  | cons op ops ih =>
    cases op with
    | get =>
      by_cases hr : bp.reserve = 0 <;>
        simp [poolRun, poolStep, BufferPool.get, hr, factoryServedCount, ih] <;>
        omega
    | getSized sz =>
      by_cases hs : sz ≤ bp.size
      · by_cases hr : bp.reserve = 0 <;>
          simp [poolRun, poolStep, BufferPool.getSized, BufferPool.get, hs, hr,
            factoryServedCount, ih] <;>
          omega
      · simp [poolRun, poolStep, BufferPool.getSized, hs, factoryServedCount, ih]
    | put c =>
      by_cases hc : c < bp.size <;>
        simp [poolRun, poolStep, BufferPool.put, hc, factoryServedCount, ih]
    | putSized c =>
      by_cases hc : bp.size ≤ c
      · have hc2 : ¬c < bp.size := by omega
        simp [poolRun, poolStep, BufferPool.putSized, BufferPool.put, hc, hc2,
          factoryServedCount, ih]
      · simp [poolRun, poolStep, BufferPool.putSized, hc, factoryServedCount, ih]

theorem served_split (bp : BufferPool) (ops : List PoolOp) :
    reserveServedCount bp ops + factoryServedCount bp ops =
      poolPathAcqCount bp.size ops := by
  induction ops generalizing bp with
  | nil => rfl
  | cons op ops ih =>
    have hi := ih (poolStep bp op)
    cases op with
    | get =>
      by_cases hr : bp.reserve = 0 <;>
        simp [poolStep, BufferPool.get, hr] at hi <;>
        simp [reserveServedCount, factoryServedCount, poolPathAcqCount,
          poolStep, BufferPool.get, hr] <;>
        omega
    | getSized sz =>
      by_cases hs : sz ≤ bp.size
      · by_cases hr : bp.reserve = 0 <;>
          simp [poolStep, BufferPool.getSized, BufferPool.get, hs, hr] at hi <;>
          simp [reserveServedCount, factoryServedCount, poolPathAcqCount,
            poolStep, BufferPool.getSized, BufferPool.get, hs, hr] <;>
          omega
      · simp [poolStep, BufferPool.getSized, hs] at hi
        simp [reserveServedCount, factoryServedCount, poolPathAcqCount,
          poolStep, BufferPool.getSized, hs]
        omega
    | put c =>
      by_cases hc : c < bp.size <;>
        simp [poolStep, BufferPool.put, hc] at hi <;>
        simp [reserveServedCount, factoryServedCount, poolPathAcqCount,
          poolStep, BufferPool.put, hc] <;>
        omega
    | putSized c =>
      by_cases hc : bp.size ≤ c
      · have hc2 : ¬c < bp.size := by omega
        simp [poolStep, BufferPool.putSized, BufferPool.put, hc, hc2] at hi
        simp [reserveServedCount, factoryServedCount, poolPathAcqCount,
          poolStep, BufferPool.putSized, BufferPool.put, hc, hc2]
        omega
      · simp [poolStep, BufferPool.putSized, hc] at hi
        simp [reserveServedCount, factoryServedCount, poolPathAcqCount,
          poolStep, BufferPool.putSized, hc]
        omega

/-- C4 amended — over any operation sequence, `hits` counts every
acquisition that reaches the internal pool draw (every `Get`, and every
`GetSized` of at most the buffer size), whether it is served from the
reserve or by the factory; `misses` counts the factory-served ones; the
pool-path acquisitions split exactly into reserve-served and
factory-served.  Hence a factory-served acquisition increments both
counters, and `hits + misses` exceeds the acquisition count by the number
of factory allocations instead of equalling it. -/
theorem bufferPool_counter_accounting (bp : BufferPool) (ops : List PoolOp) :
    (poolRun bp ops).hits = bp.hits + poolPathAcqCount bp.size ops ∧
    (poolRun bp ops).misses = bp.misses + factoryServedCount bp ops ∧
    reserveServedCount bp ops + factoryServedCount bp ops =
      poolPathAcqCount bp.size ops :=
  ⟨poolRun_hits bp ops, poolRun_misses bp ops, served_split bp ops⟩

/-- C3 — The source decides the pooled-buffer path by comparing the
advertised Content-Length against `GetStats().Allocated`, the count of
buffers ever allocated, not against the per-buffer size: with the
buffer pool holding 20 buffers of 10 MiB, a 100-byte download (well
within one buffer) takes the `LimitReader` path because `100 > 20`;
comparing against the per-buffer size, as the claim and §4.3 state,
would take the pooled path. -/
theorem downloader_pool_path_compares_allocated_count :
    (NewBufferPool 20 10485760).allocated = 20 ∧
    (NewBufferPool 20 10485760).size = 10485760 ∧
    ((0 : Int) < 100 ∧ (100 : Int) ≤ 10485760) ∧
    downloadReadPath 524288000 20 100 = false ∧
    downloadReadPath 524288000 10485760 100 = true := by decide

/-- C4 counterexample — on a pool pre-allocated with one buffer, two `Get`
calls make one reserve-served and one factory-served acquisition, yet
`hits = 2` (the counter increments on every `Get`, lines 50-54) and
`misses = 1`, so `hits + misses = 3 ≠ 2` acquisitions and the
factory-served acquisition was counted as both a hit and a miss. -/
theorem bufferPool_factory_get_counted_as_hit_and_miss :
    (poolRun (NewBufferPool 1 10485760) [PoolOp.get, PoolOp.get]).hits = 2 ∧
    (poolRun (NewBufferPool 1 10485760) [PoolOp.get, PoolOp.get]).misses = 1 ∧
    acquisitionCount [PoolOp.get, PoolOp.get] = 2 ∧
    reserveServedCount (NewBufferPool 1 10485760) [PoolOp.get, PoolOp.get] = 1 ∧
    (poolRun (NewBufferPool 1 10485760) [PoolOp.get, PoolOp.get]).hits +
        (poolRun (NewBufferPool 1 10485760) [PoolOp.get, PoolOp.get]).misses ≠
      acquisitionCount [PoolOp.get, PoolOp.get] := by decide

/-- C5 counterexample — with `max_download_size = 4` and a response of
unknown length (Content-Length −1) whose body has 5 = max + 1 bytes,
`Download` does not fail: it silently truncates to the 4-byte cap and
returns success. -/
theorem download_unknown_length_oversize_truncates :
    Download 4 100 "http://h" 200 (-1) 5 = Except.ok 4 ∧ (4 : Nat) ≠ 5 := by
  decide

theorem Download_valid_request (maxSize allocated contentLength : Int)
    (bodyLen : Nat) :
    Download maxSize allocated "http://h" 200 contentLength bodyLen =
      downloadData maxSize allocated contentLength bodyLen := rfl

/-- C5 amended — a body of exactly `max_download_size` is returned in full
whether the length is advertised accurately or unknown, and an advertised
Content-Length of `max_download_size + 1` is rejected; but when the length
is unknown, a body longer than the cap (in particular of exactly
`max_download_size + 1` bytes) is silently truncated to
`max_download_size` bytes and returned without error. -/
theorem download_cap_boundary (maxSize allocated : Int) (bodyLen : Nat)
    (hmax : 0 < maxSize) :
    Download maxSize allocated "http://h" 200 maxSize maxSize.toNat =
      Except.ok maxSize.toNat ∧
    Download maxSize allocated "http://h" 200 (-1) maxSize.toNat =
      Except.ok maxSize.toNat ∧
    Download maxSize allocated "http://h" 200 (maxSize + 1) bodyLen =
      Except.error "file too large" ∧
    (maxSize.toNat ≤ bodyLen →
      Download maxSize allocated "http://h" 200 (-1) bodyLen =
        Except.ok maxSize.toNat) := by
  have htn : maxSize.toNat ≠ 0 := by omega
  refine ⟨?_, ?_, ?_, ?_⟩
  · rw [Download_valid_request]
    by_cases hal : maxSize ≤ allocated <;>
      simp [downloadData, hal, hmax, htn, lt_self_iff_false]
  · rw [Download_valid_request]
    have h1 : ¬(-1 : Int) > maxSize := by omega
    have h2 : ¬(-1 : Int) > 0 := by omega
    simp [downloadData, h1, h2, htn]
  · rw [Download_valid_request]
    have h1 : maxSize + 1 > maxSize := by omega
    simp [downloadData, h1]
  · intro hb
    rw [Download_valid_request]
    have h1 : ¬(-1 : Int) > maxSize := by omega
    have h2 : ¬(-1 : Int) > 0 := by omega
    simp [downloadData, h1, h2, htn, Nat.min_eq_right hb]

/-- Witness for `download_cap_boundary` at `max_download_size = 4`,
`allocated = 7`, body length 5. -/
theorem download_cap_boundary_witness :
    Download 4 7 "http://h" 200 4 (4 : Int).toNat =
      Except.ok (4 : Int).toNat ∧
    Download 4 7 "http://h" 200 (-1) (4 : Int).toNat =
      Except.ok (4 : Int).toNat ∧
    Download 4 7 "http://h" 200 (4 + 1) 5 =
      Except.error "file too large" ∧
    ((4 : Int).toNat ≤ 5 →
      Download 4 7 "http://h" 200 (-1) 5 = Except.ok (4 : Int).toNat) :=
  download_cap_boundary 4 7 5 (by decide)

theorem lookupA_insertA_self {α : Type} (l : List (String × α)) (k : String)
    (v : α) : lookupA (insertA l k v) k = some v := by
  unfold lookupA insertA
  rw [List.find?_cons_of_pos]
  · rfl
  · exact beq_self_eq_true k

theorem lookupEntry_set (h : String → String) (dc : DeviceCache) (now : Int)
    (deviceID url path mt : String) (sz : Int) :
    (DeviceCache.set h dc now deviceID url path mt sz).lookupEntry deviceID
        (h url) =
      some { processedPath := path, cacheExpires := now + dc.cacheTTL,
             fileExpires := now + dc.fileTTL, created := now, uses := 0,
             size := sz, mediaType := mt, url := url } := by
  simp only [DeviceCache.set, DeviceCache.lookupEntry, lookupA_insertA_self]

/-- C6 counterexample — on an entry whose `cache_expires_at` is 10, a
lookup at exactly time 10 is a hit (the source misses only when
`now.After(CacheExpires)`, a strict comparison), returning the entry even
though the lookup time is not strictly before its expiration. -/
theorem cache_lookup_at_exact_expiry_is_hit :
    ((DeviceCache.get hashId dcBoundary 10 "d" "u").1.map
        CacheEntry.cacheExpires = some 10) ∧
    ¬(10 : Int) < 10 := by decide

/-- C7 counterexample — `NewDeviceCache` accepts `cacheTTL = 2`,
`fileTTL = 1` unchanged (both positive, so no default applies), and the
entry a `Set` then creates has
`file_expires_at − cache_expires_at = −1`, which is not strictly
positive. -/
theorem cache_ttl_gap_can_be_negative :
    ((DeviceCache.set hashId dcSwap 0 "d" "u" "p" "audio" 1).lookupEntry
        "d" (hashId "u")).map (fun e => e.fileExpires - e.cacheExpires) =
      some (-1) ∧
    ¬(0 : Int) < -1 := by decide

/-- C6 amended — every entry returned by a lookup satisfies
`now ≤ cache_expires_at` (not the strict inequality): the source rejects
only `now.After(CacheExpires)`, so the boundary lookup at exactly
`cache_expires_at` is still a hit. -/
theorem cache_returned_entry_not_expired (h : String → String)
    (dc : DeviceCache) (now : Int) (deviceID url : String) (e : CacheEntry)
    (hret : (DeviceCache.get h dc now deviceID url).1 = some e) :
    now ≤ e.cacheExpires := by
  simp only [DeviceCache.get] at hret
  split at hret
  · simp at hret
  · split at hret
    · simp at hret
    · split at hret
      · simp at hret
      · rename_i entry hexp
        simp only [Option.some.injEq] at hret
        rw [← hret]
        simp only
        omega

/-- Witness for `cache_returned_entry_not_expired` on `dcBoundary` at
lookup time 10. -/
theorem cache_returned_entry_not_expired_witness :
    (10 : Int) ≤ entryBoundary.cacheExpires :=
  cache_returned_entry_not_expired hashId dcBoundary 10 "d" "u" entryBoundary
    (by decide)

/-- C7 amended — the entry a `Set` creates always satisfies
`file_expires_at − cache_expires_at = fileTTL − cacheTTL` for the cache's
*effective* TTL fields, and that difference is strictly positive exactly
when the effective `fileTTL` exceeds the effective `cacheTTL`; the
constructor passes positive arguments through unchanged and replaces
nonpositive ones by the 28/30-minute defaults, so nothing forces the
difference positive for arbitrary arguments. -/
theorem cache_ttl_gap_effective (h : String → String) (dc : DeviceCache)
    (setTime : Int) (deviceID url path mt : String) (sz : Int)
    (e : CacheEntry)
    (he : (DeviceCache.set h dc setTime deviceID url path mt sz).lookupEntry
        deviceID (h url) = some e) :
    e.fileExpires - e.cacheExpires = dc.fileTTL - dc.cacheTTL ∧
    (dc.cacheTTL < dc.fileTTL → 0 < e.fileExpires - e.cacheExpires) ∧
    (∀ c f : Int, 0 < c → (NewDeviceCache c f).cacheTTL = c) ∧
    (∀ c f : Int, 0 < f → (NewDeviceCache c f).fileTTL = f) ∧
    (∀ c f : Int, c ≤ 0 → (NewDeviceCache c f).cacheTTL = 28 * minuteNS) ∧
    (∀ c f : Int, f ≤ 0 → (NewDeviceCache c f).fileTTL = 30 * minuteNS) := by
  rw [lookupEntry_set] at he
  simp only [Option.some.injEq] at he
  subst he
  refine ⟨by simp, by simp, ?_, ?_, ?_, ?_⟩
  · intro c f hc
    simp [NewDeviceCache]
    omega
  · intro c f hf
    simp [NewDeviceCache]
    omega
  · intro c f hc
    simp [NewDeviceCache, hc]
  · intro c f hf
    simp [NewDeviceCache, hf]

/-- Witness for `cache_ttl_gap_effective` on a cache built with TTLs
10/20 and a `Set` at time 3. -/
theorem cache_ttl_gap_effective_witness :
    ({ processedPath := "p", cacheExpires := 13, fileExpires := 23,
       created := 3, uses := 0, size := 7, mediaType := "audio",
       url := "u" } : CacheEntry).fileExpires -
        ({ processedPath := "p", cacheExpires := 13, fileExpires := 23,
           created := 3, uses := 0, size := 7, mediaType := "audio",
           url := "u" } : CacheEntry).cacheExpires =
      (NewDeviceCache 10 20).fileTTL - (NewDeviceCache 10 20).cacheTTL ∧
    ((NewDeviceCache 10 20).cacheTTL < (NewDeviceCache 10 20).fileTTL →
      0 < ({ processedPath := "p", cacheExpires := 13, fileExpires := 23,
             created := 3, uses := 0, size := 7, mediaType := "audio",
             url := "u" } : CacheEntry).fileExpires -
          ({ processedPath := "p", cacheExpires := 13, fileExpires := 23,
             created := 3, uses := 0, size := 7, mediaType := "audio",
             url := "u" } : CacheEntry).cacheExpires) ∧
    (∀ c f : Int, 0 < c → (NewDeviceCache c f).cacheTTL = c) ∧
    (∀ c f : Int, 0 < f → (NewDeviceCache c f).fileTTL = f) ∧
    (∀ c f : Int, c ≤ 0 → (NewDeviceCache c f).cacheTTL = 28 * minuteNS) ∧
    (∀ c f : Int, f ≤ 0 → (NewDeviceCache c f).fileTTL = 30 * minuteNS) :=
  cache_ttl_gap_effective hashId (NewDeviceCache 10 20) 3 "d" "u" "p"
    "audio" 7 _ (by decide)

/-- C9 — in `getRandomizedParams` every level other than `none` draws a
variation percentage in `[5, 15]` (basic 5-10, moderate 8-12, paranoid
10-15); at a probed bitrate of 1 kbps every such percentage yields
`bitrateVariation = int(1 * pct/100) = 0`, so the subsequent
`rand.Intn(bitrateVariation * 2)` receives 0 and panics instead of
returning normally. -/
theorem video_small_bitrate_makes_intn_panic :
    bitrateVariationPct "basic" 0 = some 5 ∧
    bitrateVariationPct "basic" 5 = some 10 ∧
    bitrateVariationPct "moderate" 0 = some 8 ∧
    bitrateVariationPct "moderate" 4 = some 12 ∧
    bitrateVariationPct "paranoid" 0 = some 10 ∧
    bitrateVariationPct "paranoid" 5 = some 15 ∧
    (∀ p ∈ [(5 : Int), 6, 7, 8, 9, 10, 11, 12, 13, 14, 15],
      intnPanics (bitrateIntnArg (bitrateVariation 1 p))) := by decide

/-- C1 — a valid 1×1 PNG sent inline with level `none`: the image
converter detects `png` and persists the ffmpeg output at the path with
its extension rewritten to `.png`, but the handler then stats the `.jpg`
path it generated, which was never written, so the request fails with
"Failed to stat output file" instead of succeeding. -/
theorem image_png_pipeline_stats_wrong_path :
    detectFormat png1x1 = "png" ∧
    GenerateImageOutputPath (filepathJoin "cache" (getMediaSubdir "image"))
        "d2" "0123456789abcdef0123456789abcdef" 1700000000 =
      "cache/imagens/d2_01234567_1700000000.jpg" ∧
    (imageConvert (fun _ => none) png1x1 "none"
          "cache/imagens/d2_01234567_1700000000.jpg" [1, 2, 3]).toOption.map
        Prod.snd =
      some "cache/imagens/d2_01234567_1700000000.png" ∧
    handlerImageBase64Miss (fun _ => none) png1x1 "none" "cache" "d2"
        "0123456789abcdef0123456789abcdef" 1700000000 [1, 2, 3] =
      Except.error "Failed to stat output file" := by decide

theorem get_state_frame (h : String → String) (dc : DeviceCache)
    (now : Int) (deviceID url : String) :
    (((DeviceCache.get h dc now deviceID url).2).lookupEntry deviceID
        (h url)).map frameOf =
      (dc.lookupEntry deviceID (h url)).map frameOf := by
  simp only [DeviceCache.get, DeviceCache.lookupEntry]
  cases hd : lookupA dc.cache deviceID with
  | none => simp [DeviceCache.recordMiss, hd]
  | some m =>
    cases he2 : lookupA m (h url) with
    | none => simp [DeviceCache.recordMiss, hd, he2]
    | some entry =>
      by_cases hexp : now > entry.cacheExpires
      · simp [hexp, DeviceCache.recordMiss, hd, he2]
      · simp [hexp, DeviceCache.recordHit, hd, he2, lookupA_insertA_self,
          frameOf]

/-- C8 — any sequence of `Get` calls on an entry changes at most its
`Uses` counter: the projection of the stored entry onto
(`ProcessedPath`, `CacheExpires`, `FileExpires`, `Created`, `Size`,
`MediaType`, `URL`) — including whether the entry is present at all — is
exactly what it was before the reads. -/
theorem cache_reads_mutate_only_uses (h : String → String)
    (dc : DeviceCache) (deviceID url : String) (times : List Int) :
    ((applyGets h deviceID url dc times).lookupEntry deviceID
        (h url)).map frameOf =
      (dc.lookupEntry deviceID (h url)).map frameOf := by
  induction times generalizing dc with
  | nil => rfl
  | cons now rest ih =>
    rw [applyGets, ih, get_state_frame]

/-- C2 amended — a `Get` strictly before (indeed, up to and including)
an entry's `cache_expires_at` is a hit whenever the entry is still in the
map, and the deleter armed by the `Set` that created an entry fires only
at that entry's own `file_expires_at`, which lies strictly after its
`cache_expires_at` whenever `fileTTL > cacheTTL`; the claim fails only
because a deleter armed by an earlier, replaced insertion for the same
`(device_id, url_key)` removes whichever entry occupies the key when it
fires, which can precede the replacing entry's expirations. -/
theorem cache_hit_when_present_own_timer_late (h : String → String)
    (dc : DeviceCache) (now : Int) (deviceID url : String) (e : CacheEntry)
    (hpresent : dc.lookupEntry deviceID (h url) = some e)
    (hnow : now ≤ e.cacheExpires) :
    (DeviceCache.get h dc now deviceID url).1 =
      some { e with uses := e.uses + 1 } ∧
    (∀ (dc2 : DeviceCache) (setTime : Int) (d2 url2 p2 mt2 : String)
        (sz2 : Int) (e2 : CacheEntry),
      (DeviceCache.set h dc2 setTime d2 url2 p2 mt2 sz2).lookupEntry d2
          (h url2) = some e2 →
      e2.fileExpires = setTime + dc2.fileTTL ∧
      (dc2.cacheTTL < dc2.fileTTL → e2.cacheExpires < e2.fileExpires)) := by
  constructor
  · simp only [DeviceCache.lookupEntry] at hpresent
    simp only [DeviceCache.get]
    cases hd : lookupA dc.cache deviceID with
    | none => rw [hd] at hpresent; simp at hpresent
    | some m =>
      rw [hd] at hpresent
      simp at hpresent
      have hlt : ¬now > e.cacheExpires := by omega
      simp [hpresent, hlt]
  · intro dc2 setTime d2 url2 p2 mt2 sz2 e2 he2
    rw [lookupEntry_set] at he2
    simp only [Option.some.injEq] at he2
    subst he2
    refine ⟨rfl, ?_⟩
    simp only
    omega

/-- Witness for `cache_hit_when_present_own_timer_late` on `dcBoundary`
at lookup time 4. -/
theorem cache_hit_when_present_own_timer_late_witness :
    (DeviceCache.get hashId dcBoundary 4 "d" "u").1 =
      some { processedPath := "p", cacheExpires := 10, fileExpires := 20,
             created := 0, uses := 0 + 1, size := 1, mediaType := "image",
             url := "u" } ∧
    (∀ (dc2 : DeviceCache) (setTime : Int) (d2 url2 p2 mt2 : String)
        (sz2 : Int) (e2 : CacheEntry),
      (DeviceCache.set hashId dc2 setTime d2 url2 p2 mt2 sz2).lookupEntry d2
          (hashId url2) = some e2 →
      e2.fileExpires = setTime + dc2.fileTTL ∧
      (dc2.cacheTTL < dc2.fileTTL → e2.cacheExpires < e2.fileExpires)) :=
  cache_hit_when_present_own_timer_late hashId dcBoundary 4 "d" "u"
    { processedPath := "p", cacheExpires := 10, fileExpires := 20,
      created := 0, uses := 0, size := 1, mediaType := "image", url := "u" }
    (by decide) (by decide)

/-- C10 — on a cache-miss request, after `cache.Set` the handler performs
a second `cache.Get` to read the expiration timestamps (handler lines
584-591); performed while the fresh entry is valid, that lookup is a hit:
the global `hits` counter goes up by one and the just-inserted entry's
`Uses` ends at 1, while the response still reports `cache_hit: false`. -/
theorem handler_miss_tail_counts_hidden_hit (h : String → String)
    (dc : DeviceCache) (t u : Int)
    (deviceID url outputPath mediaType : String) (processedSize : Int)
    (hu : u ≤ t + dc.cacheTTL) :
    (handlerMissTail h dc t u deviceID url outputPath mediaType
        processedSize).1.cacheHit = false ∧
    (handlerMissTail h dc t u deviceID url outputPath mediaType
        processedSize).1.success = true ∧
    (handlerMissTail h dc t u deviceID url outputPath mediaType
        processedSize).2.stats.hits = dc.stats.hits + 1 ∧
    ((handlerMissTail h dc t u deviceID url outputPath mediaType
        processedSize).2.lookupEntry deviceID (h url)).map CacheEntry.uses =
      some 1 ∧
    (handlerMissTail h dc t u deviceID url outputPath mediaType
        processedSize).1.cacheExpires = some (t + dc.cacheTTL) := by
  simp only [handlerMissTail, DeviceCache.set, DeviceCache.get,
    DeviceCache.recordHit, DeviceCache.lookupEntry, lookupA_insertA_self]
  rw [if_neg (show ¬u > t + dc.cacheTTL by omega)]
  simp [lookupA_insertA_self]

/-- Witness for `handler_miss_tail_counts_hidden_hit` on a fresh cache
with TTLs 10/20, insertion and second lookup both at time 0. -/
theorem handler_miss_tail_counts_hidden_hit_witness :
    (handlerMissTail hashId (NewDeviceCache 10 20) 0 0 "d" "u" "p"
        "image" 3).1.cacheHit = false ∧
    (handlerMissTail hashId (NewDeviceCache 10 20) 0 0 "d" "u" "p"
        "image" 3).1.success = true ∧
    (handlerMissTail hashId (NewDeviceCache 10 20) 0 0 "d" "u" "p"
        "image" 3).2.stats.hits = (NewDeviceCache 10 20).stats.hits + 1 ∧
    ((handlerMissTail hashId (NewDeviceCache 10 20) 0 0 "d" "u" "p"
        "image" 3).2.lookupEntry "d" (hashId "u")).map CacheEntry.uses =
      some 1 ∧
    (handlerMissTail hashId (NewDeviceCache 10 20) 0 0 "d" "u" "p"
        "image" 3).1.cacheExpires =
      some (0 + (NewDeviceCache 10 20).cacheTTL) :=
  handler_miss_tail_counts_hidden_hit hashId (NewDeviceCache 10 20) 0 0
    "d" "u" "p" "image" 3 (by decide)

/-- C2 counterexample — `scheduleFileDeletion` removes by key, not by
entry: with TTLs 28/30, a `Set` at time 0 arms a deleter for time 30; a
second `Set` at time 29 replaces the entry (new expirations 57/59); when
the first deleter fires at 30 it removes the replacing entry from the map,
so a `Get` at 31 — strictly before that entry's `cache_expires_at` of
57 — is a miss. -/
theorem cache_stale_deleter_evicts_replacement :
    ((DeviceCache.set hashId
          (DeviceCache.set hashId (NewDeviceCache 28 30) 0 "d" "u" "p1"
            "video" 5)
          29 "d" "u" "p2" "video" 6).lookupEntry "d" (hashId "u")).map
        (fun e => (e.cacheExpires, e.fileExpires)) = some (57, 59) ∧
    (NewDeviceCache 28 30).fileTTL = 30 ∧
    ((DeviceCache.fireDeletion
          (DeviceCache.set hashId
            (DeviceCache.set hashId (NewDeviceCache 28 30) 0 "d" "u" "p1"
              "video" 5)
            29 "d" "u" "p2" "video" 6)
          "d" (hashId "u")).lookupEntry "d" (hashId "u")) = none ∧
    (DeviceCache.get hashId
          (DeviceCache.fireDeletion
            (DeviceCache.set hashId
              (DeviceCache.set hashId (NewDeviceCache 28 30) 0 "d" "u" "p1"
                "video" 5)
              29 "d" "u" "p2" "video" 6)
            "d" (hashId "u"))
          31 "d" "u").1 = none ∧
    (31 : Int) < 57 := by decide

end FPConv
